import Mathlib

/-!
Shallow embedding of the netcheck probe-orchestration core
(src/netcheck/src/main.rs, fetch_dns.rs, fetch_local.rs, internal_comms.rs).

Pure data flow is modelled directly; effectful collaborators (the DNS
configuration reader, the interface enumerator, the gateway lookup, the
per-server resolution check) are passed in as explicit inputs, and each
probe body is embedded as a function from those inputs to the list of
messages it sends on its channel (in order).  A panic in the Rust code is
modelled as `Option.none` in that probe body's result.
-/

namespace Netcheck

/-- `LocalInfo` from internal_comms.rs: the local-addressing sub-snapshot. -/
structure LocalInfo where
  local_ip : Option String
  subnet_mask : Option String
  gateway : Option String
deriving Repr, DecidableEq

/-- One DNS server entry as built by fetch_dns.rs (`DNSServer { ip, can_resolve }`). -/
structure DNSServer where
  ip : String
  can_resolve : Option Bool
deriving Repr, DecidableEq

/-- The DNS sub-snapshot as constructed and consumed by fetch_dns.rs and
main.rs (`DNSInfo { can_fetch, can_bind_interface, dns_servers }`). -/
structure DNSInfo where
  can_fetch : Option Bool
  can_bind_interface : Option Bool
  dns_servers : List DNSServer
deriving Repr, DecidableEq

/-- `InternetInfo` from internal_comms.rs. -/
structure InternetInfo where
  public_ip : Option String
  asn : Option Nat
  reverse_dns : Option String
  isp : Option String
  location : Option String
  cloudflare_ping : Option Float
deriving Repr

/-- `DHCPInfo` from internal_comms.rs. -/
structure DHCPInfo where
  dhcp_server : Option String
  lease_time : Option Nat
  last_renewed : Option Nat
  dhcp_declared_dns : Option (List String)
deriving Repr

/-- `TracerouteHop` from internal_comms.rs. -/
structure TracerouteHop where
  hop_number : Nat
  ip : String
  latency : Float
  jitter : Float
  location : Option String
deriving Repr

/-- `Traceroute` from internal_comms.rs. -/
structure Traceroute where
  hops : List TracerouteHop
deriving Repr

/-- `TCPInfo` from internal_comms.rs. -/
structure TCPInfo where
  attempted_to_talk_on_list : List (Nat × Bool)
deriving Repr, DecidableEq

/-- `HTTPInfo` from internal_comms.rs. -/
structure HTTPInfo where
  can_access_1111 : Option Bool
  can_access_google : Option Bool
  captive_portal : Option Bool
deriving Repr, DecidableEq

/-- `HTTPSInfo` from internal_comms.rs. -/
structure HTTPSInfo where
  can_access_1111 : Option Bool
  can_access_google : Option Bool
  mitm_detected : Option Bool
deriving Repr, DecidableEq

/-- `UDPInfo` from internal_comms.rs. -/
structure UDPInfo where
  attempted_to_talk_on_list : List (Nat × Bool)
deriving Repr, DecidableEq

/-- `NTPInfo` from internal_comms.rs. -/
structure NTPInfo where
  do_use_ntp : Option Bool
  ntp_server : Option String
  can_access_ntp : Option Bool
  local_time : Option Nat
  server_time : Option Nat
deriving Repr, DecidableEq

/-- `QUICInfo` from internal_comms.rs. -/
structure QUICInfo where
  can_access_1111 : Option Bool
  can_access_google : Option Bool
deriving Repr, DecidableEq

/-- The tagged message union `FetchedDataMessage` from internal_comms.rs:
one variant per diagnostic category. -/
inductive FetchedDataMessage where
  | LocalInfo (v : LocalInfo)
  | InternetInfo (v : InternetInfo)
  | DHCPInfo (v : DHCPInfo)
  | DNSInfo (v : DNSInfo)
  | Traceroute (v : Traceroute)
  | TCPInfo (v : TCPInfo)
  | HTTPInfo (v : HTTPInfo)
  | HTTPSInfo (v : HTTPSInfo)
  | UDPInfo (v : UDPInfo)
  | NTPInfo (v : NTPInfo)
  | QUICInfo (v : QUICInfo)
deriving Repr

/-- `NetworkInfo` from internal_comms.rs: the aggregate snapshot, one
sub-snapshot per category. -/
structure NetworkInfo where
  local_info : LocalInfo
  internet_info : InternetInfo
  dhcp_info : DHCPInfo
  dns_info : DNSInfo
  traceroute : Traceroute
  tcp_info : TCPInfo
  http_info : HTTPInfo
  https_info : HTTPSInfo
  udp_info : UDPInfo
  ntp_info : NTPInfo
  quic_info : QUICInfo
deriving Repr

/-- The `Default` instances derived in internal_comms.rs: every optional
field `None`, every list empty. -/
def networkInfoDefault : NetworkInfo :=
  { local_info := { local_ip := none, subnet_mask := none, gateway := none }
    internet_info := { public_ip := none, asn := none, reverse_dns := none,
                       isp := none, location := none, cloudflare_ping := none }
    dhcp_info := { dhcp_server := none, lease_time := none, last_renewed := none,
                   dhcp_declared_dns := none }
    dns_info := { can_fetch := none, can_bind_interface := none, dns_servers := [] }
    traceroute := { hops := [] }
    tcp_info := { attempted_to_talk_on_list := [] }
    http_info := { can_access_1111 := none, can_access_google := none, captive_portal := none }
    https_info := { can_access_1111 := none, can_access_google := none, mitm_detected := none }
    udp_info := { attempted_to_talk_on_list := [] }
    ntp_info := { do_use_ntp := none, ntp_server := none, can_access_ntp := none,
                  local_time := none, server_time := none }
    quic_info := { can_access_1111 := none, can_access_google := none } }

/-- The Aggregator step, from the match in `App::run` (main.rs lines 88-100):
a `LocalInfo` message replaces `network_info.local_info`, a `DNSInfo` message
replaces `network_info.dns_info`, and every other variant falls into the
`_ => {}` arm and changes nothing. -/
def applyMessage (s : NetworkInfo) (m : FetchedDataMessage) : NetworkInfo :=
  match m with
  | .LocalInfo v => { s with local_info := v }
  | .DNSInfo v => { s with dns_info := v }
  | _ => s

/-- Draining the channel in `App::run`: fold every pending message into the
snapshot in arrival order. -/
def applyMessages (s : NetworkInfo) (ms : List FetchedDataMessage) : NetworkInfo :=
  ms.foldl applyMessage s

/-- The duplicate-elimination fold in fetch_and_return_dns_info
(fetch_dns.rs lines 48-53): push each server onto the accumulator unless it
is already present. -/
def dedupServers (l : List String) : List String :=
  l.foldl (fun acc x => if x ∈ acc then acc else acc ++ [x]) []

/-- The fold of `dedupServers` started from an arbitrary accumulator, for
reasoning by induction. -/
def dedupAux (acc : List String) (l : List String) : List String :=
  l.foldl (fun acc x => if x ∈ acc then acc else acc ++ [x]) acc

theorem dedupAux_nil (acc : List String) : dedupAux acc [] = acc := rfl

theorem dedupAux_cons (acc : List String) (x : String) (l : List String) :
    dedupAux acc (x :: l) = dedupAux (if x ∈ acc then acc else acc ++ [x]) l := rfl

theorem dedupServers_eq_aux (l : List String) : dedupServers l = dedupAux [] l := rfl

/-- Decomposition of the fold: the result is the accumulator followed by a
block of fresh elements that is a sublist of the input. -/
theorem dedupAux_decomp (l : List String) :
    ∀ acc : List String, ∃ r : List String,
      dedupAux acc l = acc ++ r ∧ r.Sublist l ∧ ∀ y ∈ r, y ∉ acc := by
  induction l with
  | nil => intro acc; exact ⟨[], by simp [dedupAux_nil], List.nil_sublist _, by simp⟩
  | cons x l ih =>
    intro acc
    rw [dedupAux_cons]
    by_cases hx : x ∈ acc
    · simp only [if_pos hx]
      obtain ⟨r, hEq, hSub, hFresh⟩ := ih acc
      exact ⟨r, hEq, hSub.cons x, hFresh⟩
    · simp only [if_neg hx]
      obtain ⟨r, hEq, hSub, hFresh⟩ := ih (acc ++ [x])
      refine ⟨x :: r, ?_, hSub.cons₂ x, ?_⟩
      · rw [hEq]; simp
      · intro y hy
        rcases List.mem_cons.mp hy with h | h
        · exact h ▸ hx
        · have := hFresh y h
          intro hmem; exact this (List.mem_append_left _ hmem)

/-- Membership through the fold: an element is in the result iff it was in
the accumulator or in the input. -/
theorem mem_dedupAux (l : List String) :
    ∀ acc y, y ∈ dedupAux acc l ↔ y ∈ acc ∨ y ∈ l := by
  induction l with
  | nil => intro acc y; simp [dedupAux_nil]
  | cons x l ih =>
    intro acc y
    rw [dedupAux_cons]
    by_cases hx : x ∈ acc
    · simp only [if_pos hx, ih]
      constructor
      · rintro (h | h)
        · exact Or.inl h
        · exact Or.inr (List.mem_cons_of_mem _ h)
      · rintro (h | h)
        · exact Or.inl h
        · rcases List.mem_cons.mp h with h | h
          · exact Or.inl (h ▸ hx)
          · exact Or.inr h
    · simp only [if_neg hx, ih]
      simp [List.mem_append, List.mem_cons]
      tauto

/-- The fold never introduces a duplicate: if the accumulator has no
duplicates, neither does the result. -/
theorem dedupAux_nodup (l : List String) :
    ∀ acc : List String, acc.Nodup → (dedupAux acc l).Nodup := by
  induction l with
  | nil => intro acc h; simpa [dedupAux_nil] using h
  | cons x l ih =>
    intro acc hacc
    rw [dedupAux_cons]
    by_cases hx : x ∈ acc
    · simpa [if_pos hx] using ih acc hacc
    · refine if_neg hx ▸ ih (acc ++ [x]) ?_
      simpa [List.nodup_append] using ⟨hacc, hx⟩

/-- Running the fold over a duplicate-free input disjoint from the
accumulator just appends the input. -/
theorem dedupAux_of_nodup (l : List String) :
    ∀ acc : List String, (∀ y ∈ l, y ∉ acc) → l.Nodup → dedupAux acc l = acc ++ l := by
  induction l with
  | nil => intro acc _ _; simp [dedupAux_nil]
  | cons x l ih =>
    intro acc hdisj hnd
    have hx : x ∉ acc := hdisj x (List.mem_cons_self x l)
    rw [dedupAux_cons, if_neg hx, ih (acc ++ [x])]
    · simp
    · intro y hy
      have hyx : y ≠ x := by
        intro h; exact (List.nodup_cons.mp hnd).1 (h ▸ hy)
      intro hmem
      rcases List.mem_append.mp hmem with h | h
      · exact hdisj y (List.mem_cons_of_mem _ hy) h
      · exact hyx (List.mem_singleton.mp h)
    · exact (List.nodup_cons.mp hnd).2

theorem dedupServers_nodup (l : List String) : (dedupServers l).Nodup := by
  rw [dedupServers_eq_aux]; exact dedupAux_nodup l [] List.nodup_nil

theorem dedupServers_sublist (l : List String) : (dedupServers l).Sublist l := by
  rw [dedupServers_eq_aux]
  obtain ⟨r, hEq, hSub, _⟩ := dedupAux_decomp l []
  rw [hEq]; simpa using hSub

theorem mem_dedupServers (l : List String) (y : String) :
    y ∈ dedupServers l ↔ y ∈ l := by
  rw [dedupServers_eq_aux, mem_dedupAux]; simp

theorem dedupServers_of_nodup (l : List String) (h : l.Nodup) : dedupServers l = l := by
  rw [dedupServers_eq_aux, dedupAux_of_nodup l [] (by simp) h]; simp

theorem dedupServers_idem (l : List String) :
    dedupServers (dedupServers l) = dedupServers l :=
  dedupServers_of_nodup _ (dedupServers_nodup l)

/-- The hover-movement keys handled in `App::handle_key_event` (main.rs lines
270-283): `Up` decrements the hover index when it is positive, `Down`
increments it when it is below `interface_list.len() - 1`. -/
inductive HoverMove where
  | up
  | down
deriving Repr, DecidableEq

/-- One key event applied to the hover index while the stage is
`PickInterface`, translated from `App::handle_key_event`. -/
def moveHover (len h : Nat) : HoverMove → Nat
  | .up => if h > 0 then h - 1 else h
  | .down => if h < len - 1 then h + 1 else h

/-- A finite sequence of hover-move key events applied in order. -/
def applyMoves (len h : Nat) (ms : List HoverMove) : Nat :=
  ms.foldl (moveHover len) h

/-- An interface address as used by fetch_local.rs: the stringified results
of `ips[i].ip()` and `ips[i].prefix()`. -/
structure InterfaceAddr where
  ip : String
  mask_bits : String
deriving Repr, DecidableEq

/-- One enumerated network interface (`pnet::datalink::interfaces()` entry):
its name and its address list. -/
structure NetworkInterface where
  name : String
  ips : List InterfaceAddr
deriving Repr, DecidableEq

/-- `fetch_and_return_local_info` from fetch_local.rs, over an explicit
enumeration result and gateway-lookup result.  It walks the interface list;
for each interface whose name matches it reads `ips[0]` (PANIC when the
address list is empty, modelled as `none`) and sends one `LocalInfo`
message.  The result is the ordered list of messages sent, or `none` when
the body panics. -/
def fetch_and_return_local_info (interfaces : List NetworkInterface)
    (gatewayResult : Except Unit String) (interface : String) :
    Option (List LocalInfo) :=
  match interfaces with
  | [] => some []
  | iface :: rest =>
    if iface.name = interface then
      match iface.ips with
      | [] => none
      | a :: _ =>
        let gateway : Option String :=
          match gatewayResult with
          | .ok g => some g
          | .error _ => none
        (fetch_and_return_local_info rest gatewayResult interface).map
          (fun ms =>
            { local_ip := some a.ip, subnet_mask := some a.mask_bits,
              gateway := gateway } :: ms)
    else fetch_and_return_local_info rest gatewayResult interface

/-- `get_interface_ip` from fetch_local.rs: return `Ok(ips[0].ip())` for the
first interface whose name matches (PANIC, modelled as `none`, when that
interface's address list is empty), `Err(())` when none matches. -/
def get_interface_ip (interfaces : List NetworkInterface) (interface : String) :
    Option (Except Unit String) :=
  match interfaces with
  | [] => some (.error ())
  | iface :: rest =>
    if iface.name = interface then
      match iface.ips with
      | [] => none
      | a :: _ => some (.ok a.ip)
    else get_interface_ip rest interface

/-- `CheckDNSResolutionResponse` from fetch_dns.rs. -/
inductive CheckDNSResolutionResponse where
  | Success
  | Failure
  | CannotBind
deriving Repr, DecidableEq

/-- The message sent when `get_dns_servers` fails (fetch_dns.rs lines
23-27). -/
def cannotFetchInfo : DNSInfo :=
  { can_fetch := some false, can_bind_interface := none, dns_servers := [] }

/-- The message sent when `get_interface_ip` fails or a per-server check
reports `CannotBind` (fetch_dns.rs lines 37-41 and 72-76). -/
def cannotBindInfo : DNSInfo :=
  { can_fetch := some false, can_bind_interface := some false, dns_servers := [] }

/-- The inner update loop of fetch_and_return_dns_info (lines 80-85): set
`can_resolve` on the first entry whose ip matches, then break. -/
def updateServer : List DNSServer → String → Bool → List DNSServer
  | [], _, _ => []
  | s :: rest, ip, ok =>
    if s.ip = ip then { s with can_resolve := some ok } :: rest
    else s :: updateServer rest ip ok

/-- Observable actions of the DNS probe body, in program order: starting a
per-server resolution check, sending a message on the channel, and sleeping
(no sleep statement exists in fetch_dns.rs, so the embedding never emits
one; the constructor exists so that the spec's claimed inter-check sleep
can be stated and refuted). -/
inductive ProbeEvent where
  | startCheck (server : String)
  | send (m : DNSInfo)
  | sleepMs (ms : Nat)
deriving Repr, DecidableEq

def isSleepEvent : ProbeEvent → Bool
  | .sleepMs _ => true
  | _ => false

def isStartCheck : ProbeEvent → Bool
  | .startCheck _ => true
  | _ => false

/-- Recording one per-server outcome in the running snapshot
(fetch_dns.rs lines 80-85): `can_resolve = Some(can_resolve == Success)`
on the matching entry. -/
def recordResult (info : DNSInfo) (server : String)
    (resp : CheckDNSResolutionResponse) : DNSInfo :=
  { info with dns_servers := updateServer info.dns_servers server (resp == .Success) }

/-- The per-server loop of fetch_and_return_dns_info (lines 68-88): check
the server; on `CannotBind` send the dedicated terminal message and return;
otherwise record the result in place and re-send the full snapshot. -/
def dnsCheckLoop (check : String → CheckDNSResolutionResponse) :
    List String → DNSInfo → List ProbeEvent
  | [], _ => []
  | server :: rest, dns_info =>
    if check server = .CannotBind then
      [.startCheck server, .send cannotBindInfo]
    else
      .startCheck server :: .send (recordResult dns_info server (check server)) ::
        dnsCheckLoop check rest (recordResult dns_info server (check server))

/-- The first snapshot sent once the server list is known (fetch_dns.rs
lines 55-64): fetch succeeded, every deduplicated server listed with
`can_resolve = None`. -/
def initialDnsInfo (servers : List String) : DNSInfo :=
  { can_fetch := some true, can_bind_interface := none,
    dns_servers := servers.map (fun s => { ip := s, can_resolve := none }) }

/-- `fetch_and_return_dns_info` from fetch_dns.rs, over explicit results of
its two effectful inputs (the configuration read and the interface-address
lookup) and an oracle giving each per-server check's outcome.  Produces the
ordered list of observable events of one run. -/
def fetch_and_return_dns_info (getDnsServersResult : Except Unit (List String))
    (getInterfaceIpResult : Except Unit String)
    (check : String → CheckDNSResolutionResponse) : List ProbeEvent :=
  match getDnsServersResult with
  | .error _ => [.send cannotFetchInfo]
  | .ok dns_servers0 =>
    match getInterfaceIpResult with
    | .error _ => [.send cannotBindInfo]
    | .ok _ =>
      .send (initialDnsInfo (dedupServers dns_servers0)) ::
        dnsCheckLoop check (dedupServers dns_servers0)
          (initialDnsInfo (dedupServers dns_servers0))

/-- The messages a run sends on the channel, in order. -/
def sentMessages (events : List ProbeEvent) : List DNSInfo :=
  events.filterMap (fun e =>
    match e with
    | .send m => some m
    | _ => none)

/-- The DNS probe's message trace for given collaborator results. -/
def dnsProbeMessages (getDnsServersResult : Except Unit (List String))
    (getInterfaceIpResult : Except Unit String)
    (check : String → CheckDNSResolutionResponse) : List DNSInfo :=
  sentMessages (fetch_and_return_dns_info getDnsServersResult
    getInterfaceIpResult check)

/-- C4 -- The DNS probe's server-list deduplication keeps first occurrences in
first-seen order (it is an order-preserving, duplicate-free sublist with the
same members; on `[a, b, a, c, b]` it yields exactly `[a, b, c]`) and it is
idempotent: rerunning it on its own output, or on any already
duplicate-free list, changes nothing. -/
theorem dedup_order_preserving_idempotent :
    (∀ l : List String, (dedupServers l).Sublist l ∧ (dedupServers l).Nodup ∧
      (∀ y, y ∈ dedupServers l ↔ y ∈ l) ∧
      dedupServers (dedupServers l) = dedupServers l) ∧
    (∀ l : List String, l.Nodup → dedupServers l = l) ∧
    dedupServers ["a", "b", "a", "c", "b"] = ["a", "b", "c"] := by
  refine ⟨fun l => ⟨dedupServers_sublist l, dedupServers_nodup l,
    mem_dedupServers l, dedupServers_idem l⟩, dedupServers_of_nodup, by decide⟩

theorem dedup_order_preserving_idempotent_witness :
    dedupServers ["x", "y"] = ["x", "y"] :=
  dedup_order_preserving_idempotent.2.1 ["x", "y"] (by decide)

/-- C1 -- Last-writer-wins in the Aggregator: folding any non-empty sequence
of `DNSInfo` messages into any starting snapshot leaves the DNS sub-snapshot
equal to the last message's payload verbatim, with no merging across
messages. -/
theorem aggregator_dns_last_writer_wins (ds : List DNSInfo) :
    ∀ (s : NetworkInfo) (h : ds ≠ []),
      (applyMessages s (ds.map FetchedDataMessage.DNSInfo)).dns_info = ds.getLast h := by
  induction ds with
  | nil => intro s h; exact absurd rfl h
  | cons d ds ih =>
    intro s h
    cases ds with
    | nil => rfl
    | cons d2 ds2 =>
      rw [List.getLast_cons]
      exact ih (applyMessage s (.DNSInfo d)) (by simp)

def dnsInfoA : DNSInfo :=
  { can_fetch := some true, can_bind_interface := none,
    dns_servers := [{ ip := "1.1.1.1", can_resolve := none }] }

def dnsInfoB : DNSInfo :=
  { can_fetch := some true, can_bind_interface := none,
    dns_servers := [{ ip := "1.1.1.1", can_resolve := some true }] }

theorem aggregator_dns_last_writer_wins_witness :
    (applyMessages networkInfoDefault
      ([dnsInfoA, dnsInfoB].map FetchedDataMessage.DNSInfo)).dns_info = dnsInfoB :=
  aggregator_dns_last_writer_wins [dnsInfoA, dnsInfoB] networkInfoDefault (by decide)

/-- C5 -- For every non-empty interface list and every sequence of hover-move
key events in the selection stage, the hover index stays within
`[0, length-1]`; with a single-element list the index never changes. -/
theorem hover_index_clamped (len h0 : Nat) (ms : List HoverMove)
    (hlen : 0 < len) (hh : h0 < len) :
    applyMoves len h0 ms < len ∧ (len = 1 → applyMoves len h0 ms = h0) := by
  induction ms generalizing h0 with
  | nil => exact ⟨hh, fun _ => rfl⟩
  | cons m ms ih =>
    have h1 : moveHover len h0 m < len := by
      cases m <;> simp only [moveHover] <;> split <;> omega
    have h2 : len = 1 → moveHover len h0 m = h0 := by
      intro he; cases m <;> simp only [moveHover] <;> split <;> omega
    refine ⟨(ih (moveHover len h0 m) h1).1, fun he => ?_⟩
    show applyMoves len (moveHover len h0 m) ms = h0
    rw [h2 he]
    exact (ih h0 hh).2 he

theorem hover_index_clamped_witness :
    applyMoves 3 1 [HoverMove.down, .down, .down, .up] < 3 ∧
    (3 = 1 → applyMoves 3 1 [HoverMove.down, .down, .down, .up] = 1) :=
  hover_index_clamped 3 1 [HoverMove.down, .down, .down, .up] (by decide) (by decide)

/-- C6 -- When reading or parsing the DNS configuration fails, the probe's
whole message trace is exactly one snapshot with fetch outcome unavailable
(`can_fetch = some false`) and an empty server list: it stops and no further
DNS message follows. -/
theorem dns_config_unreadable_single_terminal
    (getInterfaceIpResult : Except Unit String)
    (check : String → CheckDNSResolutionResponse) :
    dnsProbeMessages (.error ()) getInterfaceIpResult check =
      [{ can_fetch := some false, can_bind_interface := none, dns_servers := [] }] := rfl

/-- C2 -- Refuting the claim on the local-info probe: with an enumerated
interface list not containing the chosen identifier, the probe body runs to
completion (no panic) yet sends zero messages — it dies silently, with no
terminal-state message. -/
theorem local_probe_silent_termination :
    fetch_and_return_local_info
      [{ name := "eth0", ips := [{ ip := "192.168.1.2", mask_bits := "24" }] }]
      (Except.ok "192.168.1.1") "wlan0" = some [] := rfl

/-- C3 -- Refuting totality of the local-addressing lookup: for an
enumerated interface whose address list is empty, both `get_interface_ip`
and the local-info probe body evaluate `ips[0]` and panic (modelled as
`none`) instead of converting the failure into a message. -/
theorem local_lookup_panics_on_empty_address_list :
    get_interface_ip [{ name := "eth0", ips := [] }] "eth0" = none ∧
    fetch_and_return_local_info [{ name := "eth0", ips := [] }]
      (Except.error ()) "eth0" = none := ⟨rfl, rfl⟩

theorem dnsCheckLoop_no_sleep (check : String → CheckDNSResolutionResponse) :
    ∀ (servers : List String) (info : DNSInfo),
      (dnsCheckLoop check servers info).countP isSleepEvent = 0 := by
  intro servers
  induction servers with
  | nil => intro info; rfl
  | cons s rest ih =>
    intro info
    by_cases hcb : check s = .CannotBind
    · simp [dnsCheckLoop, hcb, isSleepEvent, List.countP_cons]
    · simp [dnsCheckLoop, hcb, List.countP_cons, isSleepEvent, ih]

/-- C7 amended -- The DNS probe enforces no inter-check spacing at all: its
body contains no sleep, so for every input the run's event trace has zero
sleep events and consecutive per-server checks start back-to-back. -/
theorem dns_probe_never_sleeps (getDnsServersResult : Except Unit (List String))
    (getInterfaceIpResult : Except Unit String)
    (check : String → CheckDNSResolutionResponse) :
    (fetch_and_return_dns_info getDnsServersResult getInterfaceIpResult
      check).countP isSleepEvent = 0 := by
  cases getDnsServersResult with
  | error e => rfl
  | ok l =>
    cases getInterfaceIpResult with
    | error e => rfl
    | ok ip =>
      simp [fetch_and_return_dns_info, List.countP_cons, isSleepEvent,
        dnsCheckLoop_no_sleep]

/-- C7 counterexample -- A concrete run with two servers whose checks both
return immediately performs both check starts with no sleep event anywhere
in between (or anywhere at all), so no 50 ms minimum spacing is enforced. -/
theorem dns_probe_no_spacing_counterexample :
    ((fetch_and_return_dns_info (.ok ["1.1.1.1", "8.8.8.8"]) (.ok "10.0.0.2")
      (fun _ => .Success)).countP isStartCheck = 2) ∧
    ((fetch_and_return_dns_info (.ok ["1.1.1.1", "8.8.8.8"]) (.ok "10.0.0.2")
      (fun _ => .Success)).countP isSleepEvent = 0) := by decide

/-- One optional field may only move from `none` toward a concrete value,
never revert and never change once set. -/
def optionStep (a b : Option Bool) : Bool := a == none || a == b

/-- Entry-wise monotone step: same server ip, and its result only moves
from unknown toward a concrete value. -/
def serverStep (a b : DNSServer) : Bool :=
  a.ip == b.ip && optionStep a.can_resolve b.can_resolve

/-- How many servers of a snapshot have a known (concrete) result. -/
def knownCount (l : List DNSServer) : Nat :=
  l.countP (fun s => s.can_resolve.isSome)

/-- Monotone step between two consecutive DNS snapshots: optional fields
only move toward concrete values, the server list keeps its length, the
number of known results does not drop, and entry-wise each server keeps its
ip and only gains information. -/
def dnsStep (a b : DNSInfo) : Bool :=
  optionStep a.can_fetch b.can_fetch &&
  optionStep a.can_bind_interface b.can_bind_interface &&
  (a.dns_servers.length == b.dns_servers.length) &&
  Nat.ble (knownCount a.dns_servers) (knownCount b.dns_servers) &&
  (List.zip a.dns_servers b.dns_servers).all (fun p => serverStep p.1 p.2)

theorem optionStep_refl (a : Option Bool) : optionStep a a = true := by
  simp [optionStep]

theorem serverStep_refl (a : DNSServer) : serverStep a a = true := by
  simp [serverStep, optionStep_refl]

theorem zip_self_serverStep (l : List DNSServer) :
    (List.zip l l).all (fun p => serverStep p.1 p.2) = true := by
  induction l with
  | nil => rfl
  | cons s rest ih => simp [List.zip_cons_cons, serverStep_refl, ih]

theorem updateServer_length (l : List DNSServer) (ip : String) (ok : Bool) :
    (updateServer l ip ok).length = l.length := by
  induction l with
  | nil => rfl
  | cons s rest ih => by_cases h : s.ip = ip <;> simp [updateServer, h, ih]

theorem updateServer_knownCount (l : List DNSServer) (ip : String) (ok : Bool) :
    knownCount l ≤ knownCount (updateServer l ip ok) := by
  induction l with
  | nil => exact Nat.le_refl _
  | cons s rest ih =>
    by_cases h : s.ip = ip
    · simp only [updateServer, if_pos h, knownCount, List.countP_cons] at ih ⊢
      cases hc : s.can_resolve <;> simp
    · simp only [updateServer, if_neg h, knownCount, List.countP_cons] at ih ⊢
      omega

theorem updateServer_zip_step (l : List DNSServer) (ip : String) (ok : Bool)
    (hnone : ∀ e ∈ l, e.ip = ip → e.can_resolve = none) :
    (List.zip l (updateServer l ip ok)).all (fun p => serverStep p.1 p.2) = true := by
  induction l with
  | nil => rfl
  | cons s rest ih =>
    by_cases h : s.ip = ip
    · have hs : s.can_resolve = none := hnone s (List.mem_cons_self _ _) h
      rw [show updateServer (s :: rest) ip ok =
        { s with can_resolve := some ok } :: rest from by simp [updateServer, h]]
      simp only [List.zip_cons_cons, List.all_cons, Bool.and_eq_true]
      refine ⟨?_, zip_self_serverStep rest⟩
      simp [serverStep, optionStep, hs]
    · simp only [updateServer, if_neg h, List.zip_cons_cons, List.all_cons,
        serverStep_refl, Bool.true_and]
      exact ih (fun e he hip => hnone e (List.mem_cons_of_mem _ he) hip)

theorem updateServer_preserves_none (l : List DNSServer) (ip other : String)
    (ok : Bool) (hne : other ≠ ip)
    (hnone : ∀ e ∈ l, e.ip = other → e.can_resolve = none) :
    ∀ e ∈ updateServer l ip ok, e.ip = other → e.can_resolve = none := by
  induction l with
  | nil => intro e he; simp [updateServer] at he
  | cons s rest ih =>
    by_cases h : s.ip = ip
    · intro e he hip
      simp only [updateServer, if_pos h, List.mem_cons] at he
      rcases he with rfl | he
      · exact ((hne (hip.symm.trans h)).elim)
      · exact hnone e (List.mem_cons_of_mem _ he) hip
    · intro e he hip
      simp only [updateServer, if_neg h, List.mem_cons] at he
      rcases he with rfl | he
      · exact hnone e (List.mem_cons_self _ _) hip
      · exact ih (fun e' he' hip' => hnone e' (List.mem_cons_of_mem _ he') hip') e he hip

theorem dnsStep_recordResult (info : DNSInfo) (server : String)
    (resp : CheckDNSResolutionResponse)
    (hnone : ∀ e ∈ info.dns_servers, e.ip = server → e.can_resolve = none) :
    dnsStep info (recordResult info server resp) = true := by
  simp [dnsStep, recordResult, optionStep_refl, updateServer_length,
    updateServer_zip_step _ _ _ hnone, Nat.ble_eq, updateServer_knownCount]

theorem dnsCheckLoop_chain (check : String → CheckDNSResolutionResponse) :
    ∀ (servers : List String) (info : DNSInfo),
      servers.Nodup →
      (∀ s ∈ servers, check s ≠ .CannotBind) →
      (∀ s ∈ servers, ∀ e ∈ info.dns_servers, e.ip = s → e.can_resolve = none) →
      List.Chain' (fun a b => dnsStep a b = true)
        (info :: sentMessages (dnsCheckLoop check servers info)) := by
  intro servers
  induction servers with
  | nil => intro info _ _ _; simp [dnsCheckLoop, sentMessages]
  | cons s rest ih =>
    intro info hnd hcb hnone
    have hs : ¬ check s = .CannotBind := hcb s (List.mem_cons_self _ _)
    have hmsgs : sentMessages (dnsCheckLoop check (s :: rest) info) =
        recordResult info s (check s) ::
          sentMessages (dnsCheckLoop check rest (recordResult info s (check s))) := by
      simp [dnsCheckLoop, hs, sentMessages]
    rw [hmsgs]
    refine List.chain'_cons.mpr ⟨?_, ?_⟩
    · exact dnsStep_recordResult info s (check s) (hnone s (List.mem_cons_self _ _))
    · refine ih (recordResult info s (check s)) (List.nodup_cons.mp hnd).2
        (fun s' hs' => hcb s' (List.mem_cons_of_mem _ hs')) ?_
      intro s' hs' e he hip
      have hne : s' ≠ s := by
        intro hcontra
        exact (List.nodup_cons.mp hnd).1 (hcontra ▸ hs')
      exact updateServer_preserves_none info.dns_servers s s' _ hne
        (fun e' he' hip' => hnone s' (List.mem_cons_of_mem _ hs') e' he' hip')
        e he hip

/-- C8 amended -- In every run in which no per-server check reports
`CannotBind`, the DNS probe's message trace is monotone: consecutive
snapshots keep the optional outcome fields once set, keep the same server
list, never drop a known result, and entry-wise only move a server's result
from unknown toward a concrete value.  (The cannot-bind terminal path,
refuted separately, is the single exception in the code.) -/
theorem dns_probe_monotone_without_bind_failure (cfg : List String)
    (ipAddr : String) (check : String → CheckDNSResolutionResponse)
    (hcb : ∀ s, check s ≠ .CannotBind) :
    List.Chain' (fun a b => dnsStep a b = true)
      (dnsProbeMessages (.ok cfg) (.ok ipAddr) check) := by
  have hinv : ∀ s ∈ dedupServers cfg,
      ∀ e ∈ (initialDnsInfo (dedupServers cfg)).dns_servers,
        e.ip = s → e.can_resolve = none := by
    intro s _ e he _
    simp only [initialDnsInfo, List.mem_map] at he
    obtain ⟨x, _, rfl⟩ := he
    rfl
  have h := dnsCheckLoop_chain check (dedupServers cfg)
    (initialDnsInfo (dedupServers cfg)) (dedupServers_nodup cfg)
    (fun s _ => hcb s) hinv
  have heq : dnsProbeMessages (.ok cfg) (.ok ipAddr) check =
      initialDnsInfo (dedupServers cfg) ::
        sentMessages (dnsCheckLoop check (dedupServers cfg)
          (initialDnsInfo (dedupServers cfg))) := rfl
  rw [heq]
  exact h

theorem dns_probe_monotone_witness :
    List.Chain' (fun a b => dnsStep a b = true)
      (dnsProbeMessages (.ok ["1.1.1.1", "8.8.8.8"]) (.ok "10.0.0.2")
        (fun _ => .Success)) := by
  apply dns_probe_monotone_without_bind_failure
  intro s
  decide

/-- C8 counterexample -- A concrete run (one configured server whose check
reports it cannot bind) whose second snapshot has an emptier server list
than the first (1 entry, then 0) and whose fetch-outcome field reverts from
available to unavailable, refuting session-wide monotonicity. -/
theorem dns_snapshot_reverts_counterexample :
    ((dnsProbeMessages (.ok ["1.1.1.1"]) (.ok "10.0.0.2")
        (fun _ => .CannotBind)).map (fun m => m.dns_servers.length) = [1, 0]) ∧
    ((dnsProbeMessages (.ok ["1.1.1.1"]) (.ok "10.0.0.2")
        (fun _ => .CannotBind)).map DNSInfo.can_fetch
      = [some true, some false]) := by decide

theorem dnsCheckLoop_getLast_cannotBind (check : String → CheckDNSResolutionResponse) :
    ∀ (servers : List String) (info : DNSInfo),
      (∃ s ∈ servers, check s = .CannotBind) →
      (sentMessages (dnsCheckLoop check servers info)).getLast? = some cannotBindInfo := by
  intro servers
  induction servers with
  | nil => intro info h; simp at h
  | cons s rest ih =>
    rintro info ⟨s', hs', hcbs⟩
    by_cases h : check s = .CannotBind
    · simp [dnsCheckLoop, h, sentMessages]
    · have hs'rest : s' ∈ rest := by
        rcases List.mem_cons.mp hs' with rfl | hr
        · exact absurd hcbs h
        · exact hr
      have htail := ih (recordResult info s (check s)) ⟨s', hs'rest, hcbs⟩
      have hmsgs : sentMessages (dnsCheckLoop check (s :: rest) info) =
          recordResult info s (check s) ::
            sentMessages (dnsCheckLoop check rest (recordResult info s (check s))) := by
        simp [dnsCheckLoop, h, sentMessages]
      rw [hmsgs]
      cases hm : sentMessages (dnsCheckLoop check rest (recordResult info s (check s))) with
      | nil => rw [hm] at htail; simp at htail
      | cons b l =>
        rw [hm] at htail
        rw [List.getLast?_cons_cons]
        exact htail

/-- C9 -- When some per-server check reports it cannot bind to the chosen
local address, the probe's final message is the dedicated cannot-bind
terminal signal (`can_bind_interface = some false`) with an empty server
list — no per-server failure is recorded for the remaining servers — and
nothing follows it. -/
theorem dns_bind_failure_dedicated_terminal (cfg : List String) (ipAddr : String)
    (check : String → CheckDNSResolutionResponse)
    (hex : ∃ s ∈ dedupServers cfg, check s = .CannotBind) :
    (dnsProbeMessages (.ok cfg) (.ok ipAddr) check).getLast? =
      some { can_fetch := some false, can_bind_interface := some false,
             dns_servers := [] } := by
  have h := dnsCheckLoop_getLast_cannotBind check (dedupServers cfg)
    (initialDnsInfo (dedupServers cfg)) hex
  have heq : dnsProbeMessages (.ok cfg) (.ok ipAddr) check =
      initialDnsInfo (dedupServers cfg) ::
        sentMessages (dnsCheckLoop check (dedupServers cfg)
          (initialDnsInfo (dedupServers cfg))) := rfl
  rw [heq]
  cases hm : sentMessages (dnsCheckLoop check (dedupServers cfg)
      (initialDnsInfo (dedupServers cfg))) with
  | nil => rw [hm] at h; simp at h
  | cons b l =>
    rw [hm] at h
    rw [List.getLast?_cons_cons]
    exact h

theorem dns_bind_failure_dedicated_terminal_witness :
    (dnsProbeMessages (.ok ["9.9.9.9"]) (.ok "10.0.0.2")
      (fun _ => .CannotBind)).getLast? =
      some { can_fetch := some false, can_bind_interface := some false,
             dns_servers := [] } :=
  dns_bind_failure_dedicated_terminal ["9.9.9.9"] "10.0.0.2"
    (fun _ => .CannotBind) ⟨"9.9.9.9", by decide, by decide⟩

/-- C10 amended -- The Aggregator step sets exactly the matching sub-snapshot
for the two handled variants (`LocalInfo` and `DNSInfo`), leaving every
other field of the snapshot untouched; every other message variant falls
into the wildcard arm and leaves the whole snapshot unchanged, its own
category's sub-snapshot included. -/
theorem applyMessage_frame (s : NetworkInfo) :
    (∀ v, applyMessage s (.LocalInfo v) = { s with local_info := v }) ∧
    (∀ v, applyMessage s (.DNSInfo v) = { s with dns_info := v }) ∧
    (∀ v, applyMessage s (.InternetInfo v) = s) ∧
    (∀ v, applyMessage s (.DHCPInfo v) = s) ∧
    (∀ v, applyMessage s (.Traceroute v) = s) ∧
    (∀ v, applyMessage s (.TCPInfo v) = s) ∧
    (∀ v, applyMessage s (.HTTPInfo v) = s) ∧
    (∀ v, applyMessage s (.HTTPSInfo v) = s) ∧
    (∀ v, applyMessage s (.UDPInfo v) = s) ∧
    (∀ v, applyMessage s (.NTPInfo v) = s) ∧
    (∀ v, applyMessage s (.QUICInfo v) = s) :=
  ⟨fun _ => rfl, fun _ => rfl, fun _ => rfl, fun _ => rfl, fun _ => rfl,
   fun _ => rfl, fun _ => rfl, fun _ => rfl, fun _ => rfl, fun _ => rfl,
   fun _ => rfl⟩

def internetInfoSample : InternetInfo :=
  { public_ip := some "203.0.113.1", asn := some 12345, reverse_dns := none,
    isp := none, location := none, cloudflare_ping := none }

/-- C10 counterexample -- Applying an `InternetInfo` message does not set
that category's sub-snapshot to the payload: on the empty snapshot the
payload is dropped entirely, so the claim fails for that variant. -/
theorem applyMessage_drops_internet_payload :
    (applyMessage networkInfoDefault
      (.InternetInfo internetInfoSample)).internet_info ≠ internetInfoSample := by
  intro h
  have h2 := congrArg InternetInfo.public_ip h
  simp [applyMessage, networkInfoDefault, internetInfoSample] at h2

end Netcheck
